import Mathlib

/-!
Verification of the psink RDB decoder.

This file shallowly embeds the Go source of the psink repository
(`pkg/psync/rdb.go` and the in-memory byte-cursor / zipmap / ziplist
helpers) into Lean and proves or refutes the frozen specification
claims against that embedding.

Modelling conventions:
* bytes and unsigned machine integers are `Nat`; signed machine
  integers are `Int`, with explicit two's-complement reinterpretations
  (`toInt8`, `toInt16`, `toInt32`, `toInt64`) and wrap-around
  (`wrap64`) where Go performs them;
* `[]byte` is `List Nat`;
* fallible operations return `Except Err`;
* IEEE-754 values are kept symbolic in `RFloat` (the claims under
  study concern branch selection and byte consumption, not float
  arithmetic): the constructors record which sentinel fired, which
  ASCII bytes were handed to the float parser, or which 64 bits were
  reinterpreted;
* responses of the destination Redis connection are external inputs;
  they are modelled as always confirming, and each `conn.Do` call is
  recorded as an emitted `Event`.
-/

namespace Psink

/-- Error kinds of the decoder (shapes of the `error` values returned by
the Go source; `fuel` marks exhaustion of the termination fuel, which a
sufficiently large fuel never reaches). -/
inductive Err where
  | eof
  | fuel
  | invalidWhence
  | negativePos
  | posOutOfRange
  | invalidZipmapLen
  | unknownZiplistHeader (b : Nat)
  | unknownLengthEncoding (t : Nat)
  | unknownStringEncoding (n : Nat)
  | unsupported
  | unhandledType (t : Nat)
  deriving DecidableEq, Repr

/-- `binary.LittleEndian.Uint16` -/
def leU16 (l : List Nat) : Nat := l.foldr (fun b acc => acc * 256 + b) 0

/-- `binary.LittleEndian.Uint32` -/
def leU32 (l : List Nat) : Nat := l.foldr (fun b acc => acc * 256 + b) 0

/-- `binary.LittleEndian.Uint64` -/
def leU64 (l : List Nat) : Nat := l.foldr (fun b acc => acc * 256 + b) 0

/-- `binary.BigEndian.Uint32` -/
def beU32 (l : List Nat) : Nat := l.foldl (fun acc b => acc * 256 + b) 0

/-- `binary.BigEndian.Uint64` -/
def beU64 (l : List Nat) : Nat := l.foldl (fun acc b => acc * 256 + b) 0

/-- Go `int8(b)`: reinterpret the low 8 bits as a signed byte. -/
def toInt8 (b : Nat) : Int :=
  if b % 256 < 128 then ((b % 256 : Nat) : Int) else ((b % 256 : Nat) : Int) - 256

/-- Go `int16(u)`: reinterpret the low 16 bits as signed. -/
def toInt16 (u : Nat) : Int :=
  if u % 65536 < 32768 then ((u % 65536 : Nat) : Int) else ((u % 65536 : Nat) : Int) - 65536

/-- Go `int32(u)`: reinterpret the low 32 bits as signed. -/
def toInt32 (u : Nat) : Int :=
  if u % 4294967296 < 2147483648 then ((u % 4294967296 : Nat) : Int)
  else ((u % 4294967296 : Nat) : Int) - 4294967296

/-- Go `int64(u)`: reinterpret the low 64 bits as signed. -/
def toInt64 (u : Nat) : Int :=
  if u % 18446744073709551616 < 9223372036854775808 then ((u % 18446744073709551616 : Nat) : Int)
  else ((u % 18446744073709551616 : Nat) : Int) - 18446744073709551616

/-- Wrap an integer into the `int64` range, as Go's two's-complement
arithmetic does on overflow. -/
def wrap64 (x : Int) : Int :=
  (x + 9223372036854775808) % 18446744073709551616 - 9223372036854775808

/-- Go `strconv.FormatInt(v, 10)` / `strconv.Itoa`: the ASCII bytes of the
decimal spelling of `v` (with a leading minus sign when `v` is negative). -/
def formatInt (v : Int) : List Nat := (toString v).data.map Char.toNat

-- Redis Object type constants (rdb.go)
def TypeString : Nat := 0
def TypeList : Nat := 1
def TypeSet : Nat := 2
def TypeZset : Nat := 3
def TypeHash : Nat := 4
def TypeZset2 : Nat := 5
def TypeModule : Nat := 6
def TypeModule2 : Nat := 7
def TypeHashZipMap : Nat := 9
def TypeListZipList : Nat := 10
def TypeSetIntSet : Nat := 11
def TypeZsetZipList : Nat := 12
def TypeHashZipList : Nat := 13
def TypeListQuickList : Nat := 14
def TypeStreamListPacks : Nat := 15

-- Redis RDB protocol opcodes (rdb.go)
def FlagOpcodeIdle : Nat := 248
def FlagOpcodeFreq : Nat := 249
def FlagOpcodeAux : Nat := 250
def FlagOpcodeResizeDB : Nat := 251
def FlagOpcodeExpireTimeMs : Nat := 252
def FlagOpcodeExpireTime : Nat := 253
def FlagOpcodeSelectDB : Nat := 254
def FlagOpcodeEOF : Nat := 255

-- Redis length type constants (rdb.go)
def Type6Bit : Nat := 0
def Type14Bit : Nat := 1
def Type32Bit : Nat := 0x80
def Type64Bit : Nat := 0x81
def TypeEncVal : Nat := 3

-- Redis ziplist constants (rdb.go)
def ZipStr06B : Nat := 0
def ZipStr14B : Nat := 1
def ZipStr32B : Nat := 2
def ZipInt04B : Nat := 15
def ZipInt08B : Nat := 0xfe
def ZipInt16B : Nat := 0xc0
def ZipInt24B : Nat := 0xf0
def ZipInt32B : Nat := 0xd0
def ZipInt64B : Nat := 0xe0
def ZipBigPrevLen : Nat := 0xfe

-- String encoding selectors (rdb.go)
def EncodeInt8 : Nat := 0
def EncodeInt16 : Nat := 1
def EncodeInt32 : Nat := 2
def EncodeLZF : Nat := 3

/-- The in-memory byte cursor (`type input struct` of the source): a
borrowed byte slab and a cursor index. -/
structure Input where
  data : List Nat
  index : Nat
  deriving DecidableEq, Repr

/-- `func (buf *input) Slice(n int) ([]byte, error)` -/
def Input.slice (buf : Input) (n : Nat) : Except Err (List Nat × Input) :=
  if buf.index + n > buf.data.length then .error .eof
  else .ok ((buf.data.drop buf.index).take n, ⟨buf.data, buf.index + n⟩)

/-- `func (buf *input) ReadByte() (byte, error)` -/
def Input.readByte (buf : Input) : Except Err (Nat × Input) :=
  if buf.index ≥ buf.data.length then .error .eof
  else .ok (buf.data.getD buf.index 0, ⟨buf.data, buf.index + 1⟩)

/-- `func (buf *input) Read(b []byte) (int, error)`: copies
`min (blen, remaining)` bytes; the returned list is what was copied. -/
def Input.read (buf : Input) (blen : Nat) : Except Err (List Nat × Input) :=
  if blen = 0 then .ok ([], buf)
  else if buf.index ≥ buf.data.length then .error .eof
  else
    .ok ((buf.data.drop buf.index).take (min blen (buf.data.length - buf.index)),
      ⟨buf.data, buf.index + min blen (buf.data.length - buf.index)⟩)

/-- `func (buf *input) Seek(offset int64, whence int) (int64, error)` -/
def Input.seek (buf : Input) (offset : Int) (whence : Nat) : Except Err (Int × Input) :=
  match (if whence = 0 then Except.ok offset
    else if whence = 1 then Except.ok ((buf.index : Int) + offset)
    else if whence = 2 then Except.ok ((buf.data.length : Int) + offset)
    else Except.error Err.invalidWhence) with
  | .error e => .error e
  | .ok abs =>
    if abs < 0 then .error .negativePos
    else if abs ≥ 2147483648 then .error .posOutOfRange
    else .ok (abs, ⟨buf.data, abs.toNat⟩)

/-- `func loadZipmapItemLength(buf *input, readFree bool) (int, int, error)` -/
def loadZipmapItemLength (buf : Input) (readFree : Bool) : Except Err (Int × Nat × Input) := do
  let (b, buf) ← buf.readByte
  if b = 253 then do
    let (s, buf) ← buf.slice 5
    pure ((beU32 (s.take 4) : Int), s.getD 4 0, buf)
  else if b = 254 then .error .invalidZipmapLen
  else if b = 255 then pure (-1, 0, buf)
  else if readFree then do
    let (free, buf) ← buf.readByte
    pure ((b : Int), free, buf)
  else pure ((b : Int), 0, buf)

/-- `func loadZipmapItem(buf *input, readFree bool) ([]byte, error)`;
the result is `none` for the `length == -1` (terminator) case, in which
the Go code returns a nil slice. -/
def loadZipmapItem (buf : Input) (readFree : Bool) : Except Err (Option (List Nat) × Input) := do
  let (length, free, buf) ← loadZipmapItemLength buf readFree
  if length = -1 then pure (none, buf)
  else do
    let (value, buf) ← buf.slice length.toNat
    let (_, buf) ← buf.seek (free : Int) 1
    pure (some value, buf)

/-- The loop body of `countZipmapItems`, with fuel for termination
(each iteration consumes at least one byte via `loadZipmapItemLength`,
so `data.length + 1` fuel is never exhausted). -/
def countZipmapItemsAux : Nat → Input → Nat → Except Err (Nat × Input)
  | 0, _, _ => .error .fuel
  | fuel + 1, buf, n => do
    let (strLen, free, buf) ← loadZipmapItemLength buf (n % 2 ≠ 0)
    if strLen = -1 then pure (n, buf)
    else do
      let (_, buf) ← buf.seek (strLen + (free : Int)) 1
      countZipmapItemsAux fuel buf (n + 1)

/-- `func countZipmapItems(buf *input) (int, error)`: walk the items to
the terminator, then `buf.Seek(0, 0)`. -/
def countZipmapItems (buf : Input) : Except Err (Nat × Input) := do
  let (n, buf) ← countZipmapItemsAux (buf.data.length + 1) buf 0
  let (_, buf) ← buf.seek 0 0
  pure (n, buf)

/-- `func loadZiplistLength(buf *input) (int64, error)`: the Go code
discards the result of `buf.Seek(8, 0)` (which always succeeds). -/
def loadZiplistLength (buf : Input) : Except Err (Nat × Input) :=
  let buf := match buf.seek 8 0 with
    | .ok (_, b) => b
    | .error _ => buf
  match buf.slice 2 with
  | .error e => .error e
  | .ok (lenBytes, buf) => .ok (leU16 lenBytes, buf)

/-- `func loadZiplistEntry(buf *input) ([]byte, error)` -/
def loadZiplistEntry (buf : Input) : Except Err (List Nat × Input) := do
  let (prevLen, buf) ← buf.readByte
  let buf := if prevLen = ZipBigPrevLen then
      match buf.seek 4 1 with
      | .ok (_, b) => b
      | .error _ => buf
    else buf
  let (header, buf) ← buf.readByte
  if header >>> 6 = ZipStr06B then
    buf.slice (header.land 0x3f)
  else if header >>> 6 = ZipStr14B then do
    let (b, buf) ← buf.readByte
    buf.slice (((header.land 0x3f) <<< 8).lor b)
  else if header >>> 6 = ZipStr32B then do
    let (lenBytes, buf) ← buf.slice 4
    buf.slice (beU32 lenBytes)
  else if header = ZipInt08B then do
    let (b, buf) ← buf.readByte
    pure (formatInt (toInt8 b), buf)
  else if header = ZipInt16B then do
    let (intBytes, buf) ← buf.slice 2
    pure (formatInt (toInt16 (leU16 intBytes)), buf)
  else if header = ZipInt32B then do
    let (intBytes, buf) ← buf.slice 4
    pure (formatInt (toInt32 (leU32 intBytes)), buf)
  else if header = ZipInt64B then do
    let (intBytes, buf) ← buf.slice 8
    pure (formatInt (toInt64 (leU64 intBytes)), buf)
  else if header = ZipInt24B then do
    let (c, buf) ← buf.read 3
    let intBytes := 0 :: (c ++ List.replicate (3 - c.length) 0)
    pure (formatInt (Int.fdiv (toInt32 (leU32 intBytes)) 256), buf)
  else if header >>> 4 = ZipInt04B then
    pure (formatInt ((header.land 0x0f : Nat) - (1 : Int)), buf)
  else .error (.unknownZiplistHeader header)

/-- State of the top-level stream reader (`rdb.buf` plus the consumed
counter `rdb.i`): the bytes not yet consumed, and the count consumed so
far. -/
structure RState where
  stream : List Nat
  i : Nat
  deriving DecidableEq, Repr

/-- `func (r *rdb) loadByte() (byte, error)` -/
def loadByte (st : RState) : Except Err (Nat × RState) :=
  match st.stream with
  | [] => .error .eof
  | b :: rest => .ok (b, ⟨rest, st.i + 1⟩)

/-- `io.ReadFull(r.buf, buf)` for a buffer of `n` bytes, together with
the `r.i += n` bookkeeping of the callers. -/
def readFull (n : Nat) (st : RState) : Except Err (List Nat × RState) :=
  if st.stream.length < n then .error .eof
  else .ok (st.stream.take n, ⟨st.stream.drop n, st.i + n⟩)

/-- `func (r *rdb) loadLen() (length uint64, isEncode bool, err error)` -/
def loadLen (st : RState) : Except Err (Nat × Bool × RState) := do
  let (b, st) ← loadByte st
  let typeLen := (b.land 0xc0) >>> 6
  if typeLen = TypeEncVal ∨ typeLen = Type6Bit then
    pure (b.land 0x3f, decide (typeLen = TypeEncVal), st)
  else if typeLen = Type14Bit then do
    let (nb, st) ← loadByte st
    pure (((b.land 0x3f) <<< 8).lor nb, false, st)
  else if b = Type32Bit then do
    let (s, st) ← readFull 4 st
    pure (beU32 s, false, st)
  else if b = Type64Bit then do
    let (s, st) ← readFull 8 st
    pure (beU64 s, false, st)
  else .error (.unknownLengthEncoding typeLen)

/-- `func (r *rdb) loadUint16() (uint16, error)` -/
def loadUint16 (st : RState) : Except Err (Nat × RState) := do
  let (s, st) ← readFull 2 st
  pure (leU16 s, st)

/-- `func (r *rdb) loadUint32() (uint32, error)` -/
def loadUint32 (st : RState) : Except Err (Nat × RState) := do
  let (s, st) ← readFull 4 st
  pure (leU32 s, st)

/-- `func (r *rdb) loadUint64() (uint64, error)` -/
def loadUint64 (st : RState) : Except Err (Nat × RState) := do
  let (s, st) ← readFull 8 st
  pure (leU64 s, st)

/-- Symbolic IEEE-754 double: records which branch of the score decoders
produced the value (sentinels, an ASCII spelling handed to
`strconv.ParseFloat`, or 64 bits handed to `math.Float64frombits`). -/
inductive RFloat where
  | negInf
  | posInf
  | nan
  | ascii (s : List Nat)
  | ofBits (bits : Nat)
  deriving DecidableEq, Repr

/-- `func (r *rdb) loadFloat() (float64, error)` -/
def loadFloat (st : RState) : Except Err (RFloat × RState) := do
  let (b, st) ← loadByte st
  if b = 0xff then pure (.negInf, st)
  else if b = 0xfe then pure (.posInf, st)
  else if b = 0xfd then pure (.nan, st)
  else do
    let (floatBytes, st) ← readFull b st
    pure (.ascii floatBytes, st)

/-- `func (r *rdb) loadBinaryFloat() (float64, error)` -/
def loadBinaryFloat (st : RState) : Except Err (RFloat × RState) := do
  let (s, st) ← readFull 8 st
  pure (.ofBits (leU64 s), st)

/-- One back-reference copy step of LZF: append `len` bytes read
sequentially from the already-produced output starting at `start`
(sequential, so overlapping references re-read freshly copied bytes). -/
def lzfCopy : Nat → Nat → List Nat → List Nat
  | 0, _, out => out
  | k + 1, start, out => lzfCopy k (start + 1) (out ++ [out.getD start 0])

/-- Modelled from the spec: the token loop of the LZF decompressor
(`lzfDecompress` is called from `rdb.go` but its source file is not part
of `src/`). One-byte control tokens: high 3 bits zero means a literal
run of `low5 + 1` bytes; otherwise a back-reference whose length is
`ctrl` (plus a following byte when `ctrl = 7`) plus the minimum length
2, at offset `((low5 <<< 8) ||| next) + 1` back in the output. -/
def lzfRun : Nat → List Nat → List Nat → List Nat
  | 0, _, out => out
  | _ + 1, [], out => out
  | fuel + 1, ctrl :: rest, out =>
    if ctrl < 32 then
      lzfRun fuel (rest.drop (ctrl + 1)) (out ++ rest.take (ctrl + 1))
    else
      let len3 := ctrl >>> 5
      let (len, rest) := if len3 < 7 then (len3, rest)
        else match rest with
          | x :: r => (len3 + x, r)
          | [] => (len3, [])
      match rest with
      | [] => out
      | lowOff :: rest =>
        let off := ((ctrl.land 31) <<< 8).lor lowOff + 1
        lzfRun fuel rest (lzfCopy (len + 2) (out.length - off) out)

/-- Modelled from the spec: `func lzfDecompress(in []byte, inLen, outLen
int) []byte` (source file absent from `src/`); per the spec it returns
exactly `outLen` bytes. -/
def lzfDecompress (inp : List Nat) (inLen outLen : Nat) : List Nat :=
  let out := lzfRun (inLen + 1) (inp.take inLen) []
  out.take outLen ++ List.replicate (outLen - out.length) 0

/-- `func (r *rdb) loadLZF() (res []byte, err error)` -/
def loadLZF (st : RState) : Except Err (List Nat × RState) := do
  let (ilength, _, st) ← loadLen st
  let (ulength, _, st) ← loadLen st
  let (val, st) ← readFull ilength st
  pure (lzfDecompress val ilength ulength, st)

/-- `func (r *rdb) loadString() ([]byte, error)` -/
def loadString (st : RState) : Except Err (List Nat × RState) := do
  let (length, needEncode, st) ← loadLen st
  if needEncode then
    if length = EncodeInt8 then do
      let (b, st) ← loadByte st
      pure (formatInt (b : Int), st)
    else if length = EncodeInt16 then do
      let (b, st) ← loadUint16 st
      pure (formatInt (b : Int), st)
    else if length = EncodeInt32 then do
      let (b, st) ← loadUint32 st
      pure (formatInt (b : Int), st)
    else if length = EncodeLZF then
      loadLZF st
    else .error (.unknownStringEncoding length)
  else readFull length st

/-- The commands the decoder issues against the destination connection
(each `conn.Do` call), plus the informational Aux output. -/
inductive Event where
  | selectDb (index : Nat)
  | script (s : List Nat)
  | aux (key val : List Nat)
  | set (key val : List Nat)
  | rpush (key : List Nat) (vals : List (List Nat))
  | sadd (key : List Nat) (vals : List (List Nat))
  | hset (key : List Nat) (pairs : List (List Nat × List Nat))
  | zadd (key : List Nat) (pairs : List (RFloat × List Nat))
  | pexpireat (key : List Nat) (ms : Int)
  deriving DecidableEq, Repr

/-- The `length`-iteration string-reading loop shared by `loadList`,
`loadSet` (the body `r.loadString()`). -/
def loadNStrings : Nat → RState → Except Err (List (List Nat) × RState)
  | 0, st => .ok ([], st)
  | k + 1, st => do
    let (s, st) ← loadString st
    let (rest, st) ← loadNStrings k st
    pure (s :: rest, st)

/-- `func (r *rdb) loadList(key []byte) error` -/
def loadList (key : List Nat) (st : RState) : Except Err (List Event × RState) := do
  let (length, _, st) ← loadLen st
  let (ent, st) ← loadNStrings length st
  pure ([.rpush key ent], st)

/-- `func (r *rdb) loadSet(key []byte) error` -/
def loadSet (key : List Nat) (st : RState) : Except Err (List Event × RState) := do
  let (length, _, st) ← loadLen st
  let (ent, st) ← loadNStrings length st
  pure ([.sadd key ent], st)

/-- The per-member score read inside `loadZSet`: `loadBinaryFloat` for
zset2 (type 5), `loadFloat` otherwise. -/
def zsetScore (t : Nat) (st : RState) : Except Err (RFloat × RState) :=
  if t = TypeZset2 then loadBinaryFloat st else loadFloat st

/-- The member/score loop of `loadZSet`. -/
def loadZSetPairs (t : Nat) : Nat → RState → Except Err (List (RFloat × List Nat) × RState)
  | 0, st => .ok ([], st)
  | k + 1, st => do
    let (member, st) ← loadString st
    let (score, st) ← zsetScore t st
    let (rest, st) ← loadZSetPairs t k st
    pure ((score, member) :: rest, st)

/-- `func (r *rdb) loadZSet(key []byte, t byte) error` -/
def loadZSet (key : List Nat) (t : Nat) (st : RState) : Except Err (List Event × RState) := do
  let (length, _, st) ← loadLen st
  let (ent, st) ← loadZSetPairs t length st
  pure ([.zadd key ent], st)

/-- The field/value loop of `loadHashMap`. -/
def loadHashPairs : Nat → RState → Except Err (List (List Nat × List Nat) × RState)
  | 0, st => .ok ([], st)
  | k + 1, st => do
    let (field, st) ← loadString st
    let (value, st) ← loadString st
    let (rest, st) ← loadHashPairs k st
    pure ((field, value) :: rest, st)

/-- `func (r *rdb) loadHashMap(key []byte) error` -/
def loadHashMap (key : List Nat) (st : RState) : Except Err (List Event × RState) := do
  let (length, _, st) ← loadLen st
  let (ent, st) ← loadHashPairs length st
  pure ([.hset key ent], st)

/-- The entry loop of `loadZipList` over the in-memory cursor. -/
def ziplistEntries : Nat → Input → Except Err (List (List Nat) × Input)
  | 0, buf => .ok ([], buf)
  | k + 1, buf => do
    let (entry, buf) ← loadZiplistEntry buf
    let (rest, buf) ← ziplistEntries k buf
    pure (entry :: rest, buf)

/-- `func (r *rdb) loadZipList() ([][]byte, error)` -/
def loadZipList (st : RState) : Except Err (List (List Nat) × RState) := do
  let (b, st) ← loadString st
  let buf : Input := ⟨b, 0⟩
  let (length, buf) ← loadZiplistLength buf
  let (items, _) ← ziplistEntries length buf
  pure (items, st)

/-- The per-slab loop of `loadListWithQuickList` (one RPUSH per inner
ziplist). -/
def quickListLoop (key : List Nat) : Nat → RState → Except Err (List Event × RState)
  | 0, st => .ok ([], st)
  | k + 1, st => do
    let (listItems, st) ← loadZipList st
    let (rest, st) ← quickListLoop key k st
    pure (.rpush key listItems :: rest, st)

/-- `func (r *rdb) loadListWithQuickList(key []byte) error` -/
def loadListWithQuickList (key : List Nat) (st : RState) : Except Err (List Event × RState) := do
  let (length, _, st) ← loadLen st
  quickListLoop key length st

/-- `func (r *rdb) loadListWithZipList(key []byte) error` -/
def loadListWithZipList (key : List Nat) (st : RState) : Except Err (List Event × RState) := do
  let (entries, st) ← loadZipList st
  pure ([.rpush key entries], st)

/-- The field/value pair loop of `loadHashMapWithZipmap` (Go appends a
nil `[]byte` for the terminator case; a nil byte slice reaches the
destination as the empty string, modelled with `Option.getD []`). -/
def zipmapPairs : Nat → Input → Except Err (List (List Nat × List Nat) × Input)
  | 0, buf => .ok ([], buf)
  | k + 1, buf => do
    let (field, buf) ← loadZipmapItem buf false
    let (value, buf) ← loadZipmapItem buf true
    let (rest, buf) ← zipmapPairs k buf
    pure ((field.getD [], value.getD []) :: rest, buf)

/-- `func (r *rdb) loadHashMapWithZipmap(key []byte) error` -/
def loadHashMapWithZipmap (key : List Nat) (st : RState) : Except Err (List Event × RState) := do
  let (zipmap, st) ← loadString st
  let buf : Input := ⟨zipmap, 0⟩
  let (blen, buf) ← buf.readByte
  let (length, buf) ←
    if blen > 254 then do
      let (c, buf) ← countZipmapItems buf
      pure (c / 2, buf)
    else pure (blen, buf)
  let (ent, _) ← zipmapPairs length buf
  pure ([.hset key ent], st)

/-- The field/value pair loop of `loadHashMapZiplist`. -/
def ziplistHashPairs : Nat → Input → Except Err (List (List Nat × List Nat) × Input)
  | 0, buf => .ok ([], buf)
  | k + 1, buf => do
    let (field, buf) ← loadZiplistEntry buf
    let (value, buf) ← loadZiplistEntry buf
    let (rest, buf) ← ziplistHashPairs k buf
    pure ((field, value) :: rest, buf)

/-- `func (r *rdb) loadHashMapZiplist(key []byte) error` -/
def loadHashMapZiplist (key : List Nat) (st : RState) : Except Err (List Event × RState) := do
  let (b, st) ← loadString st
  let buf : Input := ⟨b, 0⟩
  let (length, buf) ← loadZiplistLength buf
  let (ent, _) ← ziplistHashPairs (length / 2) buf
  pure ([.hset key ent], st)

/-- The member/score pair loop of `loadZipListSortSet` (the score bytes
are handed to `strconv.ParseFloat`, kept symbolic as `RFloat.ascii`). -/
def ziplistZSetPairs : Nat → Input → Except Err (List (RFloat × List Nat) × Input)
  | 0, buf => .ok ([], buf)
  | k + 1, buf => do
    let (member, buf) ← loadZiplistEntry buf
    let (scoreBytes, buf) ← loadZiplistEntry buf
    let (rest, buf) ← ziplistZSetPairs k buf
    pure ((.ascii scoreBytes, member) :: rest, buf)

/-- `func (r *rdb) loadZipListSortSet(key []byte) error` -/
def loadZipListSortSet (key : List Nat) (st : RState) : Except Err (List Event × RState) := do
  let (b, st) ← loadString st
  let buf : Input := ⟨b, 0⟩
  let (cardinality, buf) ← loadZiplistLength buf
  let (ent, _) ← ziplistZSetPairs (cardinality / 2) buf
  pure ([.zadd key ent], st)

/-- Format one intset member of width `intSize` from its little-endian
bytes, as the `switch intSize` in `loadIntSet` does. -/
def intsetMember (intSize : Nat) (intBytes : List Nat) : List Nat :=
  if intSize = 2 then formatInt (toInt16 (leU16 intBytes))
  else if intSize = 4 then formatInt (toInt32 (leU32 intBytes))
  else formatInt (toInt64 (leU64 intBytes))

/-- The member loop of `loadIntSet`. -/
def intsetMembers (intSize : Nat) : Nat → Input → Except Err (List (List Nat) × Input)
  | 0, buf => .ok ([], buf)
  | k + 1, buf => do
    let (intBytes, buf) ← buf.slice intSize
    let (rest, buf) ← intsetMembers intSize k buf
    pure (intsetMember intSize intBytes :: rest, buf)

/-- `func (r *rdb) loadIntSet(key []byte) error` -/
def loadIntSet (key : List Nat) (st : RState) : Except Err (List Event × RState) := do
  let (b, st) ← loadString st
  let buf : Input := ⟨b, 0⟩
  let (sizeBytes, buf) ← buf.slice 4
  let intSize := leU32 sizeBytes
  if intSize ≠ 2 ∧ intSize ≠ 4 ∧ intSize ≠ 8 then .error .unsupported
  else do
    let (lenBytes, buf) ← buf.slice 4
    let cardinality := leU32 lenBytes
    let (ent, _) ← intsetMembers intSize cardinality buf
    pure ([.sadd key ent], st)

/-- The object-type dispatch of `func (r *rdb) loadValue` (everything
before the trailing expiry check). -/
def loadValueCore (key : List Nat) (t : Nat) (st : RState) : Except Err (List Event × RState) :=
  if t = TypeString then
    match loadString st with
    | .error e => .error e
    | .ok (val, st) => .ok ([.set key val], st)
  else if t = TypeList then loadList key st
  else if t = TypeSet then loadSet key st
  else if t = TypeZset ∨ t = TypeZset2 then loadZSet key t st
  else if t = TypeHash then loadHashMap key st
  else if t = TypeListQuickList then loadListWithQuickList key st
  else if t = TypeHashZipMap then loadHashMapWithZipmap key st
  else if t = TypeListZipList then loadListWithZipList key st
  else if t = TypeSetIntSet then loadIntSet key st
  else if t = TypeZsetZipList then loadZipListSortSet key st
  else if t = TypeHashZipList then loadHashMapZiplist key st
  else if t = TypeStreamListPacks then .error .unsupported
  else if t = TypeModule ∨ t = TypeModule2 then .error .unsupported
  else .error (.unhandledType t)

/-- `func (r *rdb) loadValue(key []byte, t byte, expire int64) error`:
the type dispatch followed by `if expire > 0 { PEXPIREAT }`. -/
def loadValue (key : List Nat) (t : Nat) (expire : Int) (st : RState) :
    Except Err (List Event × RState) :=
  match loadValueCore key t st with
  | .error e => .error e
  | .ok (evs, st) =>
    if 0 < expire then .ok (evs ++ [.pexpireat key expire], st)
    else .ok (evs, st)

/-- The record arm of the `loadData` loop: read the key string, then
`loadValue`. -/
def recordStep (t : Nat) (expire : Int) (st : RState) : Except Err (List Event × RState) :=
  match loadString st with
  | .error e => .error e
  | .ok (key, st) => loadValue key t expire st

/-- ASCII bytes of `"lua"` (the Aux key that triggers `loadScript`). -/
def luaBytes : List Nat := [108, 117, 97]

/-- The loop of `func (r *rdb) loadData() error`, with explicit state:
`expire` and `hasSelectDb` are the loop-carried locals, `st` the stream
reader, `n` the announced RDB size (`r.n`). The fuel only bounds the
recursion; every iteration consumes at least one byte, so a fuel of
`n + 1` behaves exactly like the Go loop. -/
def loadDataGo : Nat → Int → Bool → RState → Nat → Except Err (List Event)
  | 0, _, _, _, _ => .error .fuel
  | fuel + 1, expire, hasSelectDb, st, n =>
    if st.i < n then
      match loadByte st with
      | .error e => .error e
      | .ok (t, st) =>
        if t = FlagOpcodeIdle then
          match loadLen st with
          | .error e => .error e
          | .ok (_, _, st) => loadDataGo fuel expire hasSelectDb st n
        else if t = FlagOpcodeFreq then
          match loadByte st with
          | .error e => .error e
          | .ok (_, st) => loadDataGo fuel expire hasSelectDb st n
        else if t = FlagOpcodeAux then
          match loadString st with
          | .error e => .error e
          | .ok (key, st) =>
            match loadString st with
            | .error e => .error e
            | .ok (val, st) =>
              match loadDataGo fuel expire hasSelectDb st n with
              | .error e => .error e
              | .ok evs =>
                .ok ((if key = luaBytes then Event.script val else Event.aux key val) :: evs)
        else if t = FlagOpcodeResizeDB then
          match loadLen st with
          | .error e => .error e
          | .ok (_, _, st) =>
            match loadLen st with
            | .error e => .error e
            | .ok (_, _, st) => loadDataGo fuel expire hasSelectDb st n
        else if t = FlagOpcodeExpireTimeMs then
          match loadUint64 st with
          | .error e => .error e
          | .ok (res, st) => loadDataGo fuel (toInt64 res) hasSelectDb st n
        else if t = FlagOpcodeExpireTime then
          match loadUint64 st with
          | .error e => .error e
          | .ok (res, st) => loadDataGo fuel (wrap64 (toInt64 res * 1000)) hasSelectDb st n
        else if t = FlagOpcodeSelectDB then
          if hasSelectDb then loadDataGo fuel expire hasSelectDb st n
          else
            match loadLen st with
            | .error e => .error e
            | .ok (dbindex, _, st) =>
              -- the source sets `hasSelectDb = false` here (not true)
              match loadDataGo fuel expire false st n with
              | .error e => .error e
              | .ok evs => .ok (Event.selectDb dbindex :: evs)
        else if t = FlagOpcodeEOF then
          match readFull 8 st with
          | .error e => .error e
          | .ok (_, _) => .ok []
        else
          match recordStep t expire st with
          | .error e => .error e
          | .ok (evs, st) =>
            match loadDataGo fuel (-1) hasSelectDb st n with
            | .error e => .error e
            | .ok rest => .ok (evs ++ rest)
    else .ok []

/-- `func (r *rdb) loadData() error`: the loop starts with `expire = 0`
(Go zero value) and `hasSelectDb = false`. -/
def loadData (st : RState) (n : Nat) : Except Err (List Event) :=
  loadDataGo (n + 1) 0 false st n

/-- The number of PEXPIREAT commands in an event list. -/
def countPexp : List Event → Nat
  | [] => 0
  | .pexpireat _ _ :: evs => countPexp evs + 1
  | _ :: evs => countPexp evs

/-- `loadDataGo` instrumented to additionally count the consumed
absolute-expiry opcodes (`0xFC`/`0xFD`); used only to state the
expiry-binding invariant. Its branch structure is identical to
`loadDataGo`. -/
def loadDataGoN : Nat → Int → Bool → RState → Nat → Except Err (List Event × Nat)
  | 0, _, _, _, _ => .error .fuel
  | fuel + 1, expire, hasSelectDb, st, n =>
    if st.i < n then
      match loadByte st with
      | .error e => .error e
      | .ok (t, st) =>
        if t = FlagOpcodeIdle then
          match loadLen st with
          | .error e => .error e
          | .ok (_, _, st) => loadDataGoN fuel expire hasSelectDb st n
        else if t = FlagOpcodeFreq then
          match loadByte st with
          | .error e => .error e
          | .ok (_, st) => loadDataGoN fuel expire hasSelectDb st n
        else if t = FlagOpcodeAux then
          match loadString st with
          | .error e => .error e
          | .ok (key, st) =>
            match loadString st with
            | .error e => .error e
            | .ok (val, st) =>
              match loadDataGoN fuel expire hasSelectDb st n with
              | .error e => .error e
              | .ok (evs, c) =>
                .ok ((if key = luaBytes then Event.script val else Event.aux key val) :: evs, c)
        else if t = FlagOpcodeResizeDB then
          match loadLen st with
          | .error e => .error e
          | .ok (_, _, st) =>
            match loadLen st with
            | .error e => .error e
            | .ok (_, _, st) => loadDataGoN fuel expire hasSelectDb st n
        else if t = FlagOpcodeExpireTimeMs then
          match loadUint64 st with
          | .error e => .error e
          | .ok (res, st) =>
            match loadDataGoN fuel (toInt64 res) hasSelectDb st n with
            | .error e => .error e
            | .ok (evs, c) => .ok (evs, c + 1)
        else if t = FlagOpcodeExpireTime then
          match loadUint64 st with
          | .error e => .error e
          | .ok (res, st) =>
            match loadDataGoN fuel (wrap64 (toInt64 res * 1000)) hasSelectDb st n with
            | .error e => .error e
            | .ok (evs, c) => .ok (evs, c + 1)
        else if t = FlagOpcodeSelectDB then
          if hasSelectDb then loadDataGoN fuel expire hasSelectDb st n
          else
            match loadLen st with
            | .error e => .error e
            | .ok (dbindex, _, st) =>
              match loadDataGoN fuel expire false st n with
              | .error e => .error e
              | .ok (evs, c) => .ok (Event.selectDb dbindex :: evs, c)
        else if t = FlagOpcodeEOF then
          match readFull 8 st with
          | .error e => .error e
          | .ok (_, _) => .ok ([], 0)
        else
          match recordStep t expire st with
          | .error e => .error e
          | .ok (evs, st) =>
            match loadDataGoN fuel (-1) hasSelectDb st n with
            | .error e => .error e
            | .ok (rest, c) => .ok (evs ++ rest, c)
    else .ok ([], 0)

/-- Recognizer for the invalid-ziplist-header structured error. -/
def isZiplistHeaderErr (r : Except Err (List Nat × Input)) : Bool :=
  match r with
  | .error (.unknownZiplistHeader _) => true
  | _ => false

/-- The position a seek resolves to for the three valid whence values
(absolute, relative, from-end). -/
def seekResolve (buf : Input) (offset : Int) (whence : Nat) : Int :=
  if whence = 0 then offset
  else if whence = 1 then (buf.index : Int) + offset
  else (buf.data.length : Int) + offset

/-! ## Helper lemmas -/

instance exceptDecEq {ε α : Type} [DecidableEq ε] [DecidableEq α] : DecidableEq (Except ε α) :=
  fun x y =>
    match x, y with
    | .error a, .error b =>
      if h : a = b then .isTrue (by rw [h]) else .isFalse (by intro he; cases he; exact h rfl)
    | .ok a, .ok b =>
      if h : a = b then .isTrue (by rw [h]) else .isFalse (by intro he; cases he; exact h rfl)
    | .error _, .ok _ => .isFalse (by intro h; cases h)
    | .ok _, .error _ => .isFalse (by intro h; cases h)

theorem exceptBind_ok {α β : Type} {x : Except Err α} {f : α → Except Err β} {b : β} :
    x >>= f = .ok b ↔ ∃ a, x = .ok a ∧ f a = .ok b := by
  cases x with
  | error e => simp [Bind.bind, Except.bind]
  | ok a => simp [Bind.bind, Except.bind]

theorem exceptPure_ok {α : Type} {a b : α} : (pure a : Except Err α) = .ok b ↔ a = b := by
  simp [pure, Except.pure]

set_option maxRecDepth 8192 in
theorem land192_shr6 : ∀ x, x < 256 → (Nat.land x 192) >>> 6 = x / 64 := by decide

set_option maxRecDepth 8192 in
theorem land63_mod : ∀ x, x < 256 → Nat.land x 63 = x % 64 := by decide

theorem two_mul_lor (a b c : Nat) (hc : c < 2) :
    Nat.lor (2 * a) (2 * b + c) = 2 * (Nat.lor a b) + c := by
  show (2 * a) ||| (2 * b + c) = 2 * (a ||| b) + c
  interval_cases c
  · simpa [Nat.bit] using Nat.lor_bit false a false b
  · simpa [Nat.bit] using Nat.lor_bit false a true b

theorem shl_lor_eq_add : ∀ (n x y : Nat), y < 2 ^ n → Nat.lor (x <<< n) y = x * 2 ^ n + y := by
  intro n
  induction n with
  | zero =>
    intro x y hy
    have h0 : y = 0 := by omega
    subst h0
    show x <<< 0 ||| 0 = x * 2 ^ 0 + 0
    simp
  | succ n ih =>
    intro x y hy
    have hshift : x <<< (n + 1) = 2 * (x <<< n) := by
      rw [Nat.shiftLeft_eq, Nat.shiftLeft_eq, Nat.pow_succ]
      ring
    rw [hshift]
    conv_lhs => rw [show y = 2 * (y / 2) + y % 2 by omega]
    rw [two_mul_lor _ _ _ (by omega)]
    rw [ih x (y / 2) (by rw [Nat.pow_succ] at hy; omega)]
    rw [Nat.pow_succ]
    have h2 : x * (2 ^ n * 2) = 2 * (x * 2 ^ n) := by ring
    rw [h2]
    omega

theorem countPexp_append (l1 l2 : List Event) :
    countPexp (l1 ++ l2) = countPexp l1 + countPexp l2 := by
  induction l1 with
  | nil => simp [countPexp]
  | cons e l ih =>
    cases e <;> simp [countPexp, ih] <;> omega

theorem countPexp_single_rpush (k : List Nat) (v : List (List Nat)) :
    countPexp [Event.rpush k v] = 0 := by simp [countPexp]

theorem loadList_pexp (key : List Nat) (st : RState) (evs : List Event) (st2 : RState)
    (h : loadList key st = .ok (evs, st2)) : countPexp evs = 0 := by
  simp only [loadList, exceptBind_ok, exceptPure_ok] at h
  obtain ⟨⟨len, enc, st1⟩, h1, ⟨ent, st3⟩, h2, h3⟩ := h
  cases h3
  simp [countPexp]

theorem loadSet_pexp (key : List Nat) (st : RState) (evs : List Event) (st2 : RState)
    (h : loadSet key st = .ok (evs, st2)) : countPexp evs = 0 := by
  simp only [loadSet, exceptBind_ok, exceptPure_ok] at h
  obtain ⟨⟨len, enc, st1⟩, h1, ⟨ent, st3⟩, h2, h3⟩ := h
  cases h3
  simp [countPexp]

theorem loadZSet_pexp (key : List Nat) (t : Nat) (st : RState) (evs : List Event) (st2 : RState)
    (h : loadZSet key t st = .ok (evs, st2)) : countPexp evs = 0 := by
  simp only [loadZSet, exceptBind_ok, exceptPure_ok] at h
  obtain ⟨⟨len, enc, st1⟩, h1, ⟨ent, st3⟩, h2, h3⟩ := h
  cases h3
  simp [countPexp]

theorem loadHashMap_pexp (key : List Nat) (st : RState) (evs : List Event) (st2 : RState)
    (h : loadHashMap key st = .ok (evs, st2)) : countPexp evs = 0 := by
  simp only [loadHashMap, exceptBind_ok, exceptPure_ok] at h
  obtain ⟨⟨len, enc, st1⟩, h1, ⟨ent, st3⟩, h2, h3⟩ := h
  cases h3
  simp [countPexp]

theorem quickListLoop_pexp (key : List Nat) :
    ∀ (k : Nat) (st : RState) (evs : List Event) (st2 : RState),
      quickListLoop key k st = .ok (evs, st2) → countPexp evs = 0 := by
  intro k
  induction k with
  | zero =>
    intro st evs st2 h
    simp only [quickListLoop] at h
    cases h
    simp [countPexp]
  | succ k ih =>
    intro st evs st2 h
    simp only [quickListLoop, exceptBind_ok, exceptPure_ok] at h
    obtain ⟨⟨items, st1⟩, h1, ⟨rest, st3⟩, h2, h3⟩ := h
    cases h3
    simp only [countPexp]
    exact ih st1 rest st3 h2

theorem loadListWithQuickList_pexp (key : List Nat) (st : RState) (evs : List Event)
    (st2 : RState) (h : loadListWithQuickList key st = .ok (evs, st2)) : countPexp evs = 0 := by
  simp only [loadListWithQuickList, exceptBind_ok] at h
  obtain ⟨⟨len, enc, st1⟩, h1, h2⟩ := h
  exact quickListLoop_pexp key len st1 evs st2 h2

theorem loadHashMapWithZipmap_pexp (key : List Nat) (st : RState) (evs : List Event)
    (st2 : RState) (h : loadHashMapWithZipmap key st = .ok (evs, st2)) : countPexp evs = 0 := by
  simp only [loadHashMapWithZipmap, exceptBind_ok, exceptPure_ok] at h
  obtain ⟨⟨zipmap, st1⟩, h1, ⟨blen, buf1⟩, h2, hrest⟩ := h
  split at hrest <;>
    simp only [exceptBind_ok, exceptPure_ok] at hrest
  · obtain ⟨⟨cnt, buf2⟩, h3, ⟨ent, buf3⟩, h4, w, h5, h6⟩ := hrest
    cases h6
    simp [countPexp]
  · obtain ⟨⟨ent, buf3⟩, h4, w, h5, h6⟩ := hrest
    cases h6
    simp [countPexp]

theorem loadListWithZipList_pexp (key : List Nat) (st : RState) (evs : List Event)
    (st2 : RState) (h : loadListWithZipList key st = .ok (evs, st2)) : countPexp evs = 0 := by
  simp only [loadListWithZipList, exceptBind_ok, exceptPure_ok] at h
  obtain ⟨⟨entries, st1⟩, h1, h2⟩ := h
  cases h2
  simp [countPexp]

theorem loadIntSet_pexp (key : List Nat) (st : RState) (evs : List Event) (st2 : RState)
    (h : loadIntSet key st = .ok (evs, st2)) : countPexp evs = 0 := by
  simp only [loadIntSet, exceptBind_ok, exceptPure_ok] at h
  obtain ⟨⟨b, st1⟩, h1, ⟨sizeBytes, buf1⟩, h2, h3⟩ := h
  split at h3
  · cases h3
  · simp only [exceptBind_ok, exceptPure_ok] at h3
    obtain ⟨⟨lenBytes, buf2⟩, h4, ⟨ent, buf3⟩, h5, h6⟩ := h3
    cases h6
    simp [countPexp]

theorem loadZipListSortSet_pexp (key : List Nat) (st : RState) (evs : List Event) (st2 : RState)
    (h : loadZipListSortSet key st = .ok (evs, st2)) : countPexp evs = 0 := by
  simp only [loadZipListSortSet, exceptBind_ok, exceptPure_ok] at h
  obtain ⟨⟨b, st1⟩, h1, ⟨card, buf1⟩, h2, ⟨ent, buf2⟩, h3, h4⟩ := h
  cases h4
  simp [countPexp]

theorem loadHashMapZiplist_pexp (key : List Nat) (st : RState) (evs : List Event) (st2 : RState)
    (h : loadHashMapZiplist key st = .ok (evs, st2)) : countPexp evs = 0 := by
  simp only [loadHashMapZiplist, exceptBind_ok, exceptPure_ok] at h
  obtain ⟨⟨b, st1⟩, h1, ⟨len, buf1⟩, h2, ⟨ent, buf2⟩, h3, h4⟩ := h
  cases h4
  simp [countPexp]

theorem loadValueCore_pexp (key : List Nat) (t : Nat) (st : RState) (evs : List Event)
    (st2 : RState) (h : loadValueCore key t st = .ok (evs, st2)) : countPexp evs = 0 := by
  unfold loadValueCore at h
  by_cases h1 : t = TypeString
  · rw [if_pos h1] at h
    cases hs : loadString st with
    | error err => rw [hs] at h; cases h
    | ok p =>
      rw [hs] at h
      obtain ⟨val, st1⟩ := p
      cases h
      simp [countPexp]
  rw [if_neg h1] at h
  by_cases h2 : t = TypeList
  · rw [if_pos h2] at h
    exact loadList_pexp _ _ _ _ h
  rw [if_neg h2] at h
  by_cases h3 : t = TypeSet
  · rw [if_pos h3] at h
    exact loadSet_pexp _ _ _ _ h
  rw [if_neg h3] at h
  by_cases h4 : t = TypeZset ∨ t = TypeZset2
  · rw [if_pos h4] at h
    exact loadZSet_pexp _ _ _ _ _ h
  rw [if_neg h4] at h
  by_cases h5 : t = TypeHash
  · rw [if_pos h5] at h
    exact loadHashMap_pexp _ _ _ _ h
  rw [if_neg h5] at h
  by_cases h6 : t = TypeListQuickList
  · rw [if_pos h6] at h
    exact loadListWithQuickList_pexp _ _ _ _ h
  rw [if_neg h6] at h
  by_cases h7 : t = TypeHashZipMap
  · rw [if_pos h7] at h
    exact loadHashMapWithZipmap_pexp _ _ _ _ h
  rw [if_neg h7] at h
  by_cases h8 : t = TypeListZipList
  · rw [if_pos h8] at h
    exact loadListWithZipList_pexp _ _ _ _ h
  rw [if_neg h8] at h
  by_cases h9 : t = TypeSetIntSet
  · rw [if_pos h9] at h
    exact loadIntSet_pexp _ _ _ _ h
  rw [if_neg h9] at h
  by_cases h10 : t = TypeZsetZipList
  · rw [if_pos h10] at h
    exact loadZipListSortSet_pexp _ _ _ _ h
  rw [if_neg h10] at h
  by_cases h11 : t = TypeHashZipList
  · rw [if_pos h11] at h
    exact loadHashMapZiplist_pexp _ _ _ _ h
  rw [if_neg h11] at h
  by_cases h12 : t = TypeStreamListPacks
  · rw [if_pos h12] at h
    cases h
  rw [if_neg h12] at h
  by_cases h13 : t = TypeModule ∨ t = TypeModule2
  · rw [if_pos h13] at h
    cases h
  rw [if_neg h13] at h
  cases h

theorem loadValue_pexp (key : List Nat) (t : Nat) (e : Int) (st : RState) (evs : List Event)
    (st2 : RState) (h : loadValue key t e st = .ok (evs, st2)) :
    ∃ core, evs = core ++ (if 0 < e then [Event.pexpireat key e] else []) ∧
      countPexp core = 0 := by
  unfold loadValue at h
  cases hc : loadValueCore key t st with
  | error err => rw [hc] at h; cases h
  | ok p =>
    rw [hc] at h
    obtain ⟨core, st1⟩ := p
    dsimp only at h
    by_cases he : 0 < e
    · rw [if_pos he] at h
      cases h
      exact ⟨core, by rw [if_pos he], loadValueCore_pexp _ _ _ _ _ hc⟩
    · rw [if_neg he] at h
      cases h
      exact ⟨evs, by rw [if_neg he]; simp, loadValueCore_pexp _ _ _ _ _ hc⟩

theorem recordStep_pexp (t : Nat) (e : Int) (st : RState) (evs : List Event) (st2 : RState)
    (h : recordStep t e st = .ok (evs, st2)) :
    countPexp evs = (if 0 < e then 1 else 0) := by
  unfold recordStep at h
  cases hk : loadString st with
  | error err => rw [hk] at h; cases h
  | ok p =>
    rw [hk] at h
    obtain ⟨key, st1⟩ := p
    obtain ⟨core, hcore, hzero⟩ := loadValue_pexp key t e st1 evs st2 h
    rw [hcore, countPexp_append, hzero]
    split <;> simp [countPexp]

theorem loadDataGoN_agrees :
    ∀ (fuel : Nat) (e : Int) (hs : Bool) (st : RState) (n : Nat) (evs : List Event),
      loadDataGo fuel e hs st n = .ok evs →
      ∃ c, loadDataGoN fuel e hs st n = .ok (evs, c) ∧
        countPexp evs ≤ c + (if 0 < e then 1 else 0) := by
  intro fuel
  induction fuel with
  | zero =>
    intro e hs st n evs h
    simp only [loadDataGo] at h
    cases h
  | succ fuel ih =>
    intro e hs st n evs h
    simp only [loadDataGo] at h
    simp only [loadDataGoN]
    by_cases hin : st.i < n
    case neg =>
      rw [if_neg hin] at h ⊢
      cases h
      exact ⟨0, rfl, by simp [countPexp]⟩
    rw [if_pos hin] at h ⊢
    cases hb : loadByte st with
    | error err => rw [hb] at h; simp at h
    | ok p =>
    obtain ⟨t, st1⟩ := p
    rw [hb] at h
    dsimp only at h ⊢
    by_cases h1 : t = FlagOpcodeIdle
    · rw [if_pos h1] at h ⊢
      cases hl : loadLen st1 with
      | error err => rw [hl] at h; simp at h
      | ok q =>
        obtain ⟨len, enc, st2⟩ := q
        rw [hl] at h
        dsimp only at h ⊢
        exact ih e hs st2 n evs h
    rw [if_neg h1] at h ⊢
    by_cases h2 : t = FlagOpcodeFreq
    · rw [if_pos h2] at h ⊢
      cases hl : loadByte st1 with
      | error err => rw [hl] at h; simp at h
      | ok q =>
        obtain ⟨b2, st2⟩ := q
        rw [hl] at h
        dsimp only at h ⊢
        exact ih e hs st2 n evs h
    rw [if_neg h2] at h ⊢
    by_cases h3 : t = FlagOpcodeAux
    · rw [if_pos h3] at h ⊢
      cases hk : loadString st1 with
      | error err => rw [hk] at h; simp at h
      | ok q =>
      obtain ⟨key, st2⟩ := q
      rw [hk] at h
      dsimp only at h ⊢
      cases hv : loadString st2 with
      | error err => rw [hv] at h; simp at h
      | ok r =>
      obtain ⟨val, st3⟩ := r
      rw [hv] at h
      dsimp only at h ⊢
      cases hrec : loadDataGo fuel e hs st3 n with
      | error err => rw [hrec] at h; simp at h
      | ok evs1 =>
      rw [hrec] at h
      dsimp only at h
      cases h
      obtain ⟨c, hN, hle⟩ := ih e hs st3 n evs1 hrec
      refine ⟨c, by rw [hN], ?_⟩
      have hcons : countPexp ((if key = luaBytes then Event.script val
          else Event.aux key val) :: evs1) = countPexp evs1 := by
        split <;> simp [countPexp]
      rw [hcons]
      exact hle
    rw [if_neg h3] at h ⊢
    by_cases h4 : t = FlagOpcodeResizeDB
    · rw [if_pos h4] at h ⊢
      cases hl : loadLen st1 with
      | error err => rw [hl] at h; simp at h
      | ok q =>
      obtain ⟨s1, e1, st2⟩ := q
      rw [hl] at h
      dsimp only at h ⊢
      cases hl2 : loadLen st2 with
      | error err => rw [hl2] at h; simp at h
      | ok r =>
      obtain ⟨s2, e2, st3⟩ := r
      rw [hl2] at h
      dsimp only at h ⊢
      exact ih e hs st3 n evs h
    rw [if_neg h4] at h ⊢
    by_cases h5 : t = FlagOpcodeExpireTimeMs
    · rw [if_pos h5] at h ⊢
      cases hu : loadUint64 st1 with
      | error err => rw [hu] at h; simp at h
      | ok q =>
      obtain ⟨res, st2⟩ := q
      rw [hu] at h
      dsimp only at h ⊢
      obtain ⟨c, hN, hle⟩ := ih (toInt64 res) hs st2 n evs h
      rw [hN]
      refine ⟨c + 1, rfl, ?_⟩
      split at hle <;> split <;> omega
    rw [if_neg h5] at h ⊢
    by_cases h6 : t = FlagOpcodeExpireTime
    · rw [if_pos h6] at h ⊢
      cases hu : loadUint64 st1 with
      | error err => rw [hu] at h; simp at h
      | ok q =>
      obtain ⟨res, st2⟩ := q
      rw [hu] at h
      dsimp only at h ⊢
      obtain ⟨c, hN, hle⟩ := ih (wrap64 (toInt64 res * 1000)) hs st2 n evs h
      rw [hN]
      refine ⟨c + 1, rfl, ?_⟩
      split at hle <;> split <;> omega
    rw [if_neg h6] at h ⊢
    by_cases h7 : t = FlagOpcodeSelectDB
    · rw [if_pos h7] at h ⊢
      by_cases hsd : hs = true
      · rw [if_pos hsd] at h ⊢
        exact ih e hs st1 n evs h
      · rw [if_neg hsd] at h ⊢
        cases hl : loadLen st1 with
        | error err => rw [hl] at h; simp at h
        | ok q =>
        obtain ⟨dbi, enc, st2⟩ := q
        rw [hl] at h
        dsimp only at h ⊢
        cases hrec : loadDataGo fuel e false st2 n with
        | error err => rw [hrec] at h; simp at h
        | ok evs1 =>
        rw [hrec] at h
        dsimp only at h
        cases h
        obtain ⟨c, hN, hle⟩ := ih e false st2 n evs1 hrec
        refine ⟨c, by rw [hN], ?_⟩
        simpa [countPexp] using hle
    rw [if_neg h7] at h ⊢
    by_cases h8 : t = FlagOpcodeEOF
    · rw [if_pos h8] at h ⊢
      cases hr : readFull 8 st1 with
      | error err => rw [hr] at h; simp at h
      | ok q =>
      obtain ⟨chk, st2⟩ := q
      rw [hr] at h
      dsimp only at h ⊢
      cases h
      exact ⟨0, rfl, by simp [countPexp]⟩
    rw [if_neg h8] at h ⊢
    cases hrs : recordStep t e st1 with
    | error err => rw [hrs] at h; simp at h
    | ok q =>
    obtain ⟨evsR, st2⟩ := q
    rw [hrs] at h
    dsimp only at h ⊢
    cases hrec : loadDataGo fuel (-1) hs st2 n with
    | error err => rw [hrec] at h; simp at h
    | ok tail =>
    rw [hrec] at h
    dsimp only at h
    cases h
    obtain ⟨c, hN, hle⟩ := ih (-1) hs st2 n tail hrec
    refine ⟨c, by rw [hN], ?_⟩
    have h0 := recordStep_pexp t e st1 evsR st2 hrs
    rw [countPexp_append, h0]
    norm_num at hle
    split <;> omega

theorem loadDataGo_record_resets (fuel : Nat) (e : Int) (hs : Bool) (t : Nat)
    (rest : List Nat) (i n : Nat) (hin : i < n) (ht : t < 248) :
    loadDataGo (fuel + 1) e hs ⟨t :: rest, i⟩ n =
      match recordStep t e ⟨rest, i + 1⟩ with
      | .error err => .error err
      | .ok (evs, st2) =>
        match loadDataGo fuel (-1) hs st2 n with
        | .error err => .error err
        | .ok tail => .ok (evs ++ tail) := by
  simp only [loadDataGo]
  rw [if_pos hin]
  dsimp only [loadByte]
  rw [if_neg (show ¬t = FlagOpcodeIdle by simp only [FlagOpcodeIdle]; omega)]
  rw [if_neg (show ¬t = FlagOpcodeFreq by simp only [FlagOpcodeFreq]; omega)]
  rw [if_neg (show ¬t = FlagOpcodeAux by simp only [FlagOpcodeAux]; omega)]
  rw [if_neg (show ¬t = FlagOpcodeResizeDB by simp only [FlagOpcodeResizeDB]; omega)]
  rw [if_neg (show ¬t = FlagOpcodeExpireTimeMs by simp only [FlagOpcodeExpireTimeMs]; omega)]
  rw [if_neg (show ¬t = FlagOpcodeExpireTime by simp only [FlagOpcodeExpireTime]; omega)]
  rw [if_neg (show ¬t = FlagOpcodeSelectDB by simp only [FlagOpcodeSelectDB]; omega)]
  rw [if_neg (show ¬t = FlagOpcodeEOF by simp only [FlagOpcodeEOF]; omega)]

/-! ## Claim theorems -/

/-- C1: the claim says integer-encoded strings decode to the ASCII decimal
spelling of the value interpreted as a SIGNED integer of the selected width
(int8 `0xFF` to `"-1"`, negative int16/int32 with a leading minus sign).
The code formats the value UNSIGNED (`strconv.Itoa(int(b))` on the raw
byte / `uint16` / `uint32`): int8 `0xFF` decodes to `"255"` (bytes
`[50, 53, 53]`), int16 `0xFFFF` to `"65535"`, int32 `0xFFFFFFFF` to
`"4294967295"`; no minus sign is ever produced. This theorem evaluates the
embedded `loadString` at those failing inputs. -/
theorem loadString_intEncoded_unsigned :
    loadString ⟨[0xc0, 0xff], 0⟩ = .ok ([50, 53, 53], ⟨[], 2⟩) ∧
    loadString ⟨[0xc1, 0xff, 0xff], 0⟩ = .ok ([54, 53, 53, 51, 53], ⟨[], 3⟩) ∧
    loadString ⟨[0xc2, 0xff, 0xff, 0xff, 0xff], 0⟩ =
      .ok ([52, 50, 57, 52, 57, 54, 55, 50, 57, 53], ⟨[], 5⟩) :=
  ⟨rfl, rfl, rfl⟩

/-- C2: the claim says the EXPIRETIME opcode `0xFD` consumes exactly 4
bytes (little-endian seconds). The code calls `loadUint64`, consuming 8
bytes. On the stream `FD 01 00 00 00 01 00 00 00 00 01 6B 01 76` the code
treats all 8 bytes `01 00 00 00 01 00 00 00` as the seconds value
(`1 + 2^32 = 4294967297`), multiplies by 1000, and then reads the string
record `"k" -> "v"`; a 4-byte read would have consumed only `01 00 00 00`
and next treated the fifth byte `01` as a list-type record. This theorem
evaluates the embedded record engine at that input. -/
theorem loadData_expireTimeSeconds_consumes8 :
    loadData ⟨[253, 1, 0, 0, 0, 1, 0, 0, 0, 0, 1, 107, 1, 118], 0⟩ 14 =
      .ok [.set [107] [118], .pexpireat [107] 4294967297000] := rfl

/-- C3: the claim says only the first SELECTDB opcode performs the
database-selection action and subsequent ones are ignored. The code's
`hasSelectDb` flag is set to `false` (never `true`) after handling a
SELECTDB, so the guard never latches: a stream with two SELECTDB opcodes
issues SELECT twice. This theorem evaluates the embedded record engine on
the stream `FE 01 FE 02`. -/
theorem loadData_selectDb_not_latched :
    loadData ⟨[254, 1, 254, 2], 0⟩ 4 = .ok [.selectDb 1, .selectDb 2] := rfl

/-- C4: the claim says that for a zipmap slab with first byte above 254
holding `k` pairs, the decoder emits exactly those `k` field/value
byte-strings in order. After counting, `countZipmapItems` rewinds the
cursor with `Seek(0, 0)` to offset 0 — the count byte — instead of
offset 1, so the pair loop re-reads the `0xFF` count byte as a terminator
(empty field) and parses the rest misaligned. On the slab
`FF 01 61 01 00 62 FF` (one pair `"a" -> "b"`), the code emits
`HSET key "" "\x01"`; the second conjunct shows the identical pair data
under a small count byte (the `blen ≤ 254` path) decodes correctly to
`HSET key "a" "b"`, isolating the rewind as the cause. -/
theorem loadHashMapWithZipmap_rewind_garbles :
    loadHashMapWithZipmap [107] ⟨[7, 255, 1, 97, 1, 0, 98, 255], 0⟩ =
      .ok ([.hset [107] [([], [1])]], ⟨[], 8⟩) ∧
    loadHashMapWithZipmap [107] ⟨[7, 1, 1, 97, 1, 0, 98, 255], 0⟩ =
      .ok ([.hset [107] [([97], [98])]], ⟨[], 8⟩) :=
  ⟨rfl, rfl⟩

/-- C5 counterexample: the claim says a ziplist entry header byte of the
form `1111xxxx` with low nibble outside `0x1..0xD` and different from
`0xFE` — e.g. `0xFF` — yields an invalid-ziplist-header error. The code's
final case matches any header with `header >> 4 == 15` not caught earlier,
so header `0xFF` decodes as a 4-bit immediate to `(15 - 1) = 14`, returning
the bytes of `"14"` (`[49, 52]`) with no error. -/
theorem loadZiplistEntry_ff_decodes :
    loadZiplistEntry ⟨[0, 255], 0⟩ = .ok ([49, 52], ⟨[0, 255], 2⟩) := rfl

set_option maxRecDepth 8192 in
/-- C5 amended: `loadZiplistEntry` returns the invalid-ziplist-header
error exactly for header bytes in `0xC0..0xEF` other than the three
integer headers `0xC0`, `0xD0`, `0xE0`; every header byte of the form
`1111xxxx` other than `0xF0` (int24) and `0xFE` (int8) — including
`0xFF` — is decoded as a 4-bit immediate (`(header & 0x0F) - 1`) instead
of erroring. Stated over a minimal entry (prev-len byte 0 followed by the
header byte); the header-error outcome is decided before any payload
byte is read, so it depends only on the header. -/
theorem loadZiplistEntry_headerError_characterization :
    ∀ h, h < 256 →
      (isZiplistHeaderErr (loadZiplistEntry ⟨[0, h], 0⟩) = true ↔
        (192 ≤ h ∧ h ≤ 239 ∧ h ≠ 192 ∧ h ≠ 208 ∧ h ≠ 224)) := by
  decide

/-- Witness for the C5 amended theorem at header byte `0xC1`. -/
theorem loadZiplistEntry_headerError_characterization_witness :
    isZiplistHeaderErr (loadZiplistEntry ⟨[0, 193], 0⟩) = true ↔
      (192 ≤ 193 ∧ 193 ≤ 239 ∧ 193 ≠ 192 ∧ (193 : Nat) ≠ 208 ∧ 193 ≠ 224) :=
  loadZiplistEntry_headerError_characterization 193 (by decide)

/-- C9 counterexample: the claim says no successful byte-cursor operation
ever leaves the index above the slab length. A seek only fails when the
resolved position is negative or at least `2^31`; seeking to absolute
position 5 on a 2-byte slab succeeds and leaves the index at 5, above
the length. -/
theorem seek_beyond_length_succeeds :
    Input.seek ⟨[0, 0], 0⟩ 5 0 = .ok (5, ⟨[0, 0], 5⟩) ∧
    (Input.mk [0, 0] 5).data.length < (Input.mk [0, 0] 5).index :=
  ⟨rfl, by decide⟩

/-- C9 amended: the reading operations of the byte cursor keep the index
within `[0, len]`: a successful `slice` advances the index by `n` and
leaves it at most `len` (a slice that would exceed the length fails with
EOF without moving the index, which is immediate from the definition); a
successful `read_byte` leaves the index at most `len`; a successful
`read` with a non-empty buffer leaves the index at most `len`, and with
an empty buffer leaves the cursor unchanged. A seek with a valid whence
fails exactly when the resolved position is negative or at least `2^31` —
but a successful seek sets the index to the resolved position, which may
lie beyond `len` (the claim's conclusion that no successful operation
leaves the index above `len` fails for seek; see the counterexample). -/
theorem cursor_bounds_amended :
    (∀ buf n out buf2, Input.slice buf n = .ok (out, buf2) →
      buf2.index = buf.index + n ∧ buf2.index ≤ buf2.data.length) ∧
    (∀ buf b buf2, Input.readByte buf = .ok (b, buf2) →
      buf2.index ≤ buf2.data.length) ∧
    (∀ buf blen out buf2, Input.read buf blen = .ok (out, buf2) →
      (0 < blen → buf2.index ≤ buf2.data.length) ∧ (blen = 0 → buf2 = buf)) ∧
    (∀ buf off w, w = 0 ∨ w = 1 ∨ w = 2 →
      (((∃ r buf2, Input.seek buf off w = .ok (r, buf2)) ↔
          0 ≤ seekResolve buf off w ∧ seekResolve buf off w < 2147483648) ∧
        (∀ r buf2, Input.seek buf off w = .ok (r, buf2) →
          buf2.index = (seekResolve buf off w).toNat))) := by
  refine ⟨?_, ?_, ?_, ?_⟩
  · intro buf n out buf2 h
    unfold Input.slice at h
    split at h
    · cases h
    · rename_i hle
      cases h
      constructor
      · rfl
      · simp only []
        omega
  · intro buf b buf2 h
    unfold Input.readByte at h
    split at h
    · cases h
    · rename_i hlt
      cases h
      simp only []
      omega
  · intro buf blen out buf2 h
    unfold Input.read at h
    split at h
    · rename_i h0
      cases h
      exact ⟨fun hpos => absurd h0 (by omega), fun _ => rfl⟩
    · split at h
      · cases h
      · rename_i h0 hlt
        cases h
        refine ⟨fun _ => ?_, fun hz => absurd hz h0⟩
        simp only []
        omega
  · intro buf off w hw
    have hres : (if w = 0 then Except.ok off
        else if w = 1 then Except.ok ((buf.index : Int) + off)
        else if w = 2 then Except.ok ((buf.data.length : Int) + off)
        else Except.error Err.invalidWhence) = Except.ok (seekResolve buf off w) := by
      rcases hw with h | h | h <;> subst h <;> simp [seekResolve]
    constructor
    · constructor
      · rintro ⟨r, buf2, hseek⟩
        unfold Input.seek at hseek
        rw [hres] at hseek
        simp only [] at hseek
        split at hseek
        · cases hseek
        · split at hseek
          · cases hseek
          · rename_i hneg hbig
            omega
      · rintro ⟨hge, hlt⟩
        refine ⟨seekResolve buf off w, ⟨buf.data, (seekResolve buf off w).toNat⟩, ?_⟩
        unfold Input.seek
        rw [hres]
        simp only []
        rw [if_neg (by omega), if_neg (by omega)]
    · intro r buf2 hseek
      unfold Input.seek at hseek
      rw [hres] at hseek
      simp only [] at hseek
      split at hseek
      · cases hseek
      · split at hseek
        · cases hseek
        · cases hseek
          rfl

/-- Witness for the C9 amended theorem: a concrete successful slice on a
3-byte slab starting at index 1. -/
theorem cursor_bounds_amended_witness :
    (Input.mk [9, 9, 9] 3).index = (Input.mk [9, 9, 9] 1).index + 2 ∧
      (Input.mk [9, 9, 9] 3).index ≤ (Input.mk [9, 9, 9] 3).data.length :=
  cursor_bounds_amended.1 ⟨[9, 9, 9], 1⟩ 2 [9, 9] ⟨[9, 9, 9], 3⟩ (by decide)

/-- C10: in the ziplist 24-bit-integer case (`0xF0` header), the payload
is read with the partial-read primitive `Read` into a zeroed 4-byte
buffer, so a slab that ends with only 1 or 2 of the 3 payload bytes still
decodes: the missing high bytes are treated as zero (1 byte `c0` decodes
to `c0`; 2 bytes `c0 c1` decode to `c0 + 256*c1`), and an error (EOF) is
returned only when zero payload bytes remain. -/
theorem ziplistEntry_int24_partial :
    ∀ c0 c1 : Nat, c0 < 256 → c1 < 256 →
      loadZiplistEntry ⟨[0, 240, c0], 0⟩ = .ok (formatInt (c0 : Int), ⟨[0, 240, c0], 3⟩) ∧
      loadZiplistEntry ⟨[0, 240, c0, c1], 0⟩ =
        .ok (formatInt ((c0 : Int) + 256 * (c1 : Int)), ⟨[0, 240, c0, c1], 4⟩) ∧
      loadZiplistEntry ⟨[0, 240], 0⟩ = .error .eof := by
  intro c0 c1 hb0 hb1
  refine ⟨?_, ?_, rfl⟩
  · simp [loadZiplistEntry, Input.readByte, Input.read, Bind.bind, Except.bind,
      ZipBigPrevLen, ZipStr06B, ZipStr14B, ZipStr32B, ZipInt08B, ZipInt16B, ZipInt32B,
      ZipInt64B, ZipInt24B, ZipInt04B, leU32, toInt32, pure, Except.pure]
    congr 1
    have h1 : (c0 * 256 % 4294967296) < 2147483648 := by omega
    rw [if_pos h1]
    have h2 : ((c0 : Int) * 256 % 4294967296) = (c0 : Int) * 256 := by omega
    rw [h2]
    exact Int.mul_fdiv_cancel _ (by norm_num)
  · simp [loadZiplistEntry, Input.readByte, Input.read, Bind.bind, Except.bind,
      ZipBigPrevLen, ZipStr06B, ZipStr14B, ZipStr32B, ZipInt08B, ZipInt16B, ZipInt32B,
      ZipInt64B, ZipInt24B, ZipInt04B, leU32, toInt32, pure, Except.pure]
    congr 1
    have h2 : ((c1 * 256 + c0) * 256 % 4294967296) < 2147483648 := by omega
    rw [if_pos h2]
    have h3 : (((c1 : Int) * 256 + c0) * 256 % 4294967296) = ((c1 : Int) * 256 + c0) * 256 := by
      omega
    rw [h3]
    rw [Int.mul_fdiv_cancel _ (by norm_num)]
    ring

/-- Witness for C10 at payload bytes `0x07` and `0x02 0x01`. -/
theorem ziplistEntry_int24_partial_witness :
    loadZiplistEntry ⟨[0, 240, 7], 0⟩ = .ok (formatInt (7 : Int), ⟨[0, 240, 7], 3⟩) ∧
      loadZiplistEntry ⟨[0, 240, 7, 2], 0⟩ =
        .ok (formatInt ((7 : Int) + 256 * (2 : Int)), ⟨[0, 240, 7, 2], 4⟩) ∧
      loadZiplistEntry ⟨[0, 240], 0⟩ = .error .eof :=
  ziplistEntry_int24_partial 7 2 (by decide) (by decide)

/-- C7: the zset score decoder `loadFloat` reads one byte `b` and returns
negative infinity for `b = 0xFF`, positive infinity for `b = 0xFE`, NaN
for `b = 0xFD`, and otherwise hands exactly the next `b` bytes to the
ASCII float parser; the zset2 score decoder `loadBinaryFloat` reads
exactly 8 bytes and reinterprets their little-endian value as an IEEE-754
binary64. `loadZSet` uses `loadBinaryFloat` for type 5 (zset2) and
`loadFloat` for any other type, in particular type 3 (zset). Float values
are symbolic (`RFloat`): the constructors record the branch taken and the
bytes consumed. -/
theorem zset_score_decoders :
    (∀ rest i, loadFloat ⟨255 :: rest, i⟩ = .ok (.negInf, ⟨rest, i + 1⟩)) ∧
    (∀ rest i, loadFloat ⟨254 :: rest, i⟩ = .ok (.posInf, ⟨rest, i + 1⟩)) ∧
    (∀ rest i, loadFloat ⟨253 :: rest, i⟩ = .ok (.nan, ⟨rest, i + 1⟩)) ∧
    (∀ b s rest i, b ≤ 252 → s.length = b →
      loadFloat ⟨b :: (s ++ rest), i⟩ = .ok (.ascii s, ⟨rest, i + 1 + b⟩)) ∧
    (∀ s rest i, s.length = 8 →
      loadBinaryFloat ⟨s ++ rest, i⟩ = .ok (.ofBits (leU64 s), ⟨rest, i + 8⟩)) ∧
    (∀ st, zsetScore TypeZset st = loadFloat st) ∧
    (∀ st, zsetScore TypeZset2 st = loadBinaryFloat st) := by
  refine ⟨?_, ?_, ?_, ?_, ?_, ?_, ?_⟩
  · intro rest i
    rfl
  · intro rest i
    rfl
  · intro rest i
    rfl
  · intro b s rest i hb hs
    simp only [loadFloat, loadByte, Bind.bind, Except.bind]
    rw [if_neg (by omega), if_neg (by omega), if_neg (by omega)]
    simp only [readFull, List.length_append, hs]
    rw [if_neg (by omega)]
    rw [show (s ++ rest).take b = s by rw [← hs]; exact List.take_left s rest]
    rw [show (s ++ rest).drop b = rest by rw [← hs]; exact List.drop_left s rest]
    rfl
  · intro s rest i hs
    simp only [loadBinaryFloat, readFull, Bind.bind, Except.bind, List.length_append, hs]
    rw [if_neg (by omega)]
    rw [show (s ++ rest).take 8 = s by rw [← hs]; exact List.take_left s rest]
    rw [show (s ++ rest).drop 8 = rest by rw [← hs]; exact List.drop_left s rest]
    rfl
  · intro st
    rfl
  · intro st
    rfl

/-- Witness for C7 at concrete sentinel and payload inputs. -/
theorem zset_score_decoders_witness :
    loadFloat ⟨3 :: ([52, 46, 53] ++ [9]), 0⟩ = .ok (.ascii [52, 46, 53], ⟨[9], 0 + 1 + 3⟩) :=
  zset_score_decoders.2.2.2.1 3 [52, 46, 53] [9] 0 (by decide) (by decide)

/-- C6: `loadLen` decodes the length prefix per the spec: a first byte
below 64 (`00xxxxxx`) is the literal 6-bit length; a first byte in
64..127 (`01xxxxxx`) plus one byte is a 14-bit big-endian literal length;
`0x80` plus 4 bytes is a 32-bit big-endian length; `0x81` plus 8 bytes is
a 64-bit big-endian length; a first byte at least 192 (`11xxxxxx`) gives
its low 6 bits with the is-encoding flag set; and exactly the remaining
first bytes — `10xxxxxx` other than `0x80` and `0x81` — produce the
unknown-length-encoding error. -/
theorem loadLen_spec :
    (∀ b rest i, b < 64 → loadLen ⟨b :: rest, i⟩ = .ok (b, false, ⟨rest, i + 1⟩)) ∧
    (∀ b nb rest i, 64 ≤ b → b < 128 → nb < 256 →
      loadLen ⟨b :: nb :: rest, i⟩ = .ok ((b - 64) * 256 + nb, false, ⟨rest, i + 1 + 1⟩)) ∧
    (∀ a0 a1 a2 a3 rest i,
      loadLen ⟨128 :: a0 :: a1 :: a2 :: a3 :: rest, i⟩ =
        .ok (((a0 * 256 + a1) * 256 + a2) * 256 + a3, false, ⟨rest, i + 1 + 4⟩)) ∧
    (∀ a0 a1 a2 a3 a4 a5 a6 a7 rest i,
      loadLen ⟨129 :: a0 :: a1 :: a2 :: a3 :: a4 :: a5 :: a6 :: a7 :: rest, i⟩ =
        .ok (((((((a0 * 256 + a1) * 256 + a2) * 256 + a3) * 256 + a4) * 256 + a5) * 256 + a6)
          * 256 + a7, false, ⟨rest, i + 1 + 8⟩)) ∧
    (∀ b rest i, 192 ≤ b → b < 256 →
      loadLen ⟨b :: rest, i⟩ = .ok (b - 192, true, ⟨rest, i + 1⟩)) ∧
    (∀ b rest i, 128 ≤ b → b < 192 → b ≠ 128 → b ≠ 129 →
      loadLen ⟨b :: rest, i⟩ = .error (.unknownLengthEncoding 2)) := by
  refine ⟨?_, ?_, ?_, ?_, ?_, ?_⟩
  · intro b rest i hb
    simp only [loadLen, loadByte, Bind.bind, Except.bind]
    rw [land192_shr6 b (by omega), land63_mod b (by omega)]
    rw [show b / 64 = 0 by omega, show b % 64 = b by omega]
    simp [TypeEncVal, Type6Bit, pure, Except.pure]
  · intro b nb rest i hb hb2 hnb
    simp only [loadLen, loadByte, Bind.bind, Except.bind]
    rw [land192_shr6 b (by omega), land63_mod b (by omega)]
    rw [show b / 64 = 1 by omega]
    simp only [TypeEncVal, Type6Bit, Type14Bit, pure, Except.pure]
    norm_num
    rw [shl_lor_eq_add 8 (b % 64) nb (by norm_num; omega)]
    omega
  · intro a0 a1 a2 a3 rest i
    simp only [loadLen, loadByte, Bind.bind, Except.bind, readFull]
    rw [show (Nat.land 128 192) >>> 6 = 2 from by decide]
    simp only [TypeEncVal, Type6Bit, Type14Bit, Type32Bit, Type64Bit]
    norm_num
    rw [if_neg (by omega)]
    show Except.ok (beU32 [a0, a1, a2, a3], false, RState.mk rest (i + 1 + 4)) = _
    norm_num [beU32, List.foldl]
  · intro a0 a1 a2 a3 a4 a5 a6 a7 rest i
    simp only [loadLen, loadByte, Bind.bind, Except.bind, readFull]
    rw [show (Nat.land 129 192) >>> 6 = 2 from by decide]
    simp only [TypeEncVal, Type6Bit, Type14Bit, Type32Bit, Type64Bit]
    norm_num
    rw [if_neg (by omega)]
    show Except.ok (beU64 [a0, a1, a2, a3, a4, a5, a6, a7], false,
      RState.mk rest (i + 1 + 8)) = _
    norm_num [beU64, List.foldl]
  · intro b rest i hb hb2
    simp only [loadLen, loadByte, Bind.bind, Except.bind]
    rw [land192_shr6 b (by omega), land63_mod b (by omega)]
    rw [show b / 64 = 3 by omega, show b % 64 = b - 192 by omega]
    simp [TypeEncVal, Type6Bit, pure, Except.pure]
  · intro b rest i hb hb2 h80 h81
    simp only [loadLen, loadByte, Bind.bind, Except.bind]
    rw [land192_shr6 b (by omega)]
    rw [show b / 64 = 2 by omega]
    simp [TypeEncVal, Type6Bit, Type14Bit, Type32Bit, Type64Bit, h80, h81]

/-- Witness for C6 at the reserved first byte `0x90` (and the 6-bit
literal 5). -/
theorem loadLen_spec_witness :
    loadLen ⟨[144], 0⟩ = .error (.unknownLengthEncoding 2) ∧
      loadLen ⟨[5], 0⟩ = .ok (5, false, ⟨[], 1⟩) :=
  ⟨loadLen_spec.2.2.2.2.2 144 [] 0 (by decide) (by decide) (by decide) (by decide),
    loadLen_spec.1 5 [] 0 (by decide)⟩

/-- C8: the pending-expiry register is one-shot. Conjunct 1: a successful
`loadValue` emits, besides its write commands (which contain no
PEXPIREAT), exactly one PEXPIREAT — bound to its own key with the current
register value — when the register is strictly positive, and none
otherwise. Conjunct 2: in any run of the `loadData` loop, the number of
PEXPIREAT commands emitted is at most the number of absolute-expiry
opcodes (`0xFC`/`0xFD`) consumed (as counted by the instrumented
`loadDataGoN`, which agrees with `loadDataGo` on the events), plus one
for an initially-armed register — so no two records ever consume the same
pending expiry. Conjunct 3: the same for a full `loadData` run from the
initial register value 0, with no initial allowance. Conjunct 4: the loop
continues after every data record with the register reset to `-1`. -/
theorem expiry_register_one_shot :
    (∀ (key : List Nat) (t : Nat) (e : Int) (st : RState) (evs : List Event) (st2 : RState),
      loadValue key t e st = .ok (evs, st2) →
      ∃ core, evs = core ++ (if 0 < e then [Event.pexpireat key e] else []) ∧
        countPexp core = 0) ∧
    (∀ (fuel : Nat) (e : Int) (hs : Bool) (st : RState) (n : Nat) (evs : List Event),
      loadDataGo fuel e hs st n = .ok evs →
      ∃ c, loadDataGoN fuel e hs st n = .ok (evs, c) ∧
        countPexp evs ≤ c + (if 0 < e then 1 else 0)) ∧
    (∀ (st : RState) (n : Nat) (evs : List Event),
      loadData st n = .ok evs →
      ∃ c, loadDataGoN (n + 1) 0 false st n = .ok (evs, c) ∧ countPexp evs ≤ c) ∧
    (∀ (fuel : Nat) (e : Int) (hs : Bool) (t : Nat) (rest : List Nat) (i n : Nat),
      i < n → t < 248 →
      loadDataGo (fuel + 1) e hs ⟨t :: rest, i⟩ n =
        match recordStep t e ⟨rest, i + 1⟩ with
        | .error err => .error err
        | .ok (evs, st2) =>
          match loadDataGo fuel (-1) hs st2 n with
          | .error err => .error err
          | .ok tail => .ok (evs ++ tail)) := by
  refine ⟨loadValue_pexp, loadDataGoN_agrees, ?_,
    fun fuel e hs t rest i n hin ht => loadDataGo_record_resets fuel e hs t rest i n hin ht⟩
  intro st n evs h
  obtain ⟨c, hN, hle⟩ := loadDataGoN_agrees (n + 1) 0 false st n evs h
  refine ⟨c, hN, ?_⟩
  norm_num at hle
  exact hle

/-- Witness for C8 at a concrete string record with pending expiry 5. -/
theorem expiry_register_one_shot_witness :
    ∃ core, [Event.set [107] [118], Event.pexpireat [107] 5] =
        core ++ (if 0 < (5 : Int) then [Event.pexpireat [107] 5] else []) ∧
      countPexp core = 0 :=
  expiry_register_one_shot.1 [107] TypeString 5 ⟨[1, 118], 0⟩
    [Event.set [107] [118], Event.pexpireat [107] 5] ⟨[], 2⟩ (by decide)

end Psink
